import Mathlib

/-!
Verification of the rating-chart script `codes/svg_charts.py`.

The script fetches a chess player's monthly game archives, extracts a rating
series per time class, and renders a dotted SVG chart.  Network calls are
modelled by passing fetch outcomes in as values (`Fetch`); the matplotlib
rendering backend is modelled by the observable layout numbers the code
computes (axis limits, tick values, dot coordinates) and by which of the two
drawing branches (placeholder card vs. chart) runs.

Conventions used throughout the embedding:
* Python dict lookups `d.get(k, default)` on the JSON game records become
  `Option` fields with `Option.getD`.
* Python `int` arithmetic is `Int`.  The script's float expressions
  (`step * 0.5`, `(r - y_min) / step` under `math.floor`, `y_max / 32` under
  `math.ceil`, `n * 0.25` under `int`) are all exact in IEEE doubles for the
  magnitudes involved, so they are modelled by exact integer floor/ceiling
  divisions; Lean's `Int` division `/` is floor division for positive
  divisors, matching Python's `//` and `math.floor` of a true quotient.
* Python list sorts (`sorted`) are stable ascending sorts; they are modelled
  with `List.insertionSort`, which is also stable and ascending, applied to a
  total preorder `a ≼ b ↔ ¬ key b < key a` (Python's sort only invokes `<`).
* `str.lower()` is modelled by lowercasing each character (exact for the
  ASCII usernames the API serves).
-/

/-- Python `str.lower()` on a string, char by char (ASCII case folding). -/
def pyLower (s : String) : String := String.mk (s.data.map Char.toLower)

/-- A `white`/`black` sub-object of a game record.  Absent JSON keys are
`none`, mirroring `d.get(k)` defaults in the script. -/
structure Player where
  username : Option String := none
  rating : Option Int := none
deriving DecidableEq

/-- One game record from a monthly archive page, with exactly the keys the
script reads: `white`, `black`, `time_class`, `rules`, `end_time` (and the
`time` key used as the secondary sort default). -/
structure Game where
  white : Option Player := none
  black : Option Player := none
  time_class : Option String := none
  rules : Option String := none
  end_time : Option Int := none
  time : Option Int := none
deriving DecidableEq

/-- Config constant `USERNAME` of the script. -/
def USERNAME : String := "Wawa_wuwa"

/-- Config constant `RULES` of the script. -/
def RULES : String := "chess"

/-- Config constant `NGAMES` of the script. -/
def NGAMES : Nat := 100

/-- Config constant `OUTPUT_DIR` of the script. -/
def OUTPUT_DIR : String := "assets/svg"

/-- Config constant `DOT_STEP_RATING` (rating units between dot rows). -/
def DOT_STEP_RATING : Int := 8

/-- Config constant `MAX_Y_TICKS`. -/
def MAX_Y_TICKS : Nat := 6

/-- Outcome of one `requests.get` call: an HTTP response with a status code
and a parsed JSON body, or a network-level exception. -/
inductive Fetch (α : Type) where
  | response (status : Nat) (body : α)
  | netError
deriving DecidableEq

/-- Sort key produced by `archive_key` in `get_archives_sorted`: either the
`(year, month)` pair parsed from a trailing `/YYYY/MM` segment, or a string
(the ISO date fragment when one is found, otherwise the whole URL).  Python
represents these as `(int, int)` / `(str,)` tuples; comparing a pair key with
a string key raises `TypeError`. -/
inductive ArchKey where
  | ym (y m : Nat)
  | str (s : String)
deriving DecidableEq

/-- Digits (most significant first) to the number they denote, as Python
`int(...)` does on a digit string. -/
def digitsToNat (cs : List Char) : Nat :=
  cs.foldl (fun acc c => 10 * acc + (c.toNat - 48)) 0

/-- The regex `r"/(\d{4})/(\d{1,2})/?$"` of `archive_key`: the URL must end
with `/` + four digits + `/` + one or two digits + an optional `/`.  Because
the pattern is anchored at the end and slashes are literal, a match exists
iff, after stripping one optional trailing slash, the trailing run of digits
has length 1 or 2, is preceded by `/`, the four characters before that are
digits, and they are preceded by another `/`. -/
def parseYM (url : String) : Option (Nat × Nat) :=
  let cs := url.data
  let cs := match cs.getLast? with
    | some c => if c = '/' then cs.dropLast else cs
    | none => cs
  let rev := cs.reverse
  let mrun := rev.takeWhile Char.isDigit
  if mrun.length = 0 ∨ 2 < mrun.length then none
  else
    match rev.drop mrun.length with
    | '/' :: rest2 =>
      let yrun := rest2.take 4
      if yrun.length = 4 ∧ yrun.all Char.isDigit = true then
        match rest2.drop 4 with
        | '/' :: _ => some (digitsToNat yrun.reverse, digitsToNat mrun.reverse)
        | _ => none
      else none
    | _ => none

/-- Does the 10-character ISO-date pattern `\d{4}-\d{2}-\d{2}` match at the
head of this character list? -/
def isoHead : List Char → Option String
  | a :: b :: c :: d :: e :: f :: g :: h :: i :: j :: _ =>
    if (a.isDigit && b.isDigit && c.isDigit && d.isDigit && (e == '-')
        && f.isDigit && g.isDigit && (h == '-') && i.isDigit && j.isDigit) then
      some (String.mk [a, b, c, d, e, f, g, h, i, j])
    else none
  | _ => none

/-- Leftmost match of `re.search(r"(\d{4}-\d{2}-\d{2})", url)`: try the fixed
10-character pattern at each position, left to right. -/
def findIsoAux : List Char → Option String
  | [] => none
  | c :: rest =>
    match isoHead (c :: rest) with
    | some s => some s
    | none => findIsoAux rest

/-- The ISO-date fallback search of `archive_key`. -/
def findIso (url : String) : Option String := findIsoAux url.data

/-- `archive_key` of `get_archives_sorted`: `(year, month)` when the trailing
`/YYYY/MM` parses, else the ISO date fragment, else the URL itself. -/
def archive_key (url : String) : ArchKey :=
  match parseYM url with
  | some (y, m) => ArchKey.ym y m
  | none =>
    match findIso url with
    | some s => ArchKey.str s
    | none => ArchKey.str url

/-- Whether a key is a `(year, month)` pair (Python type `(int, int)`). -/
def keyIsYM : ArchKey → Bool
  | .ym _ _ => true
  | .str _ => false

/-- Python string `<` (lexicographic comparison by code point). -/
def charsLT : List Char → List Char → Bool
  | _, [] => false
  | [], _ :: _ => true
  | a :: as, b :: bs =>
    if a.toNat < b.toNat then true
    else if b.toNat < a.toNat then false
    else charsLT as bs

/-- The total preorder Python's ascending sort realises on archive keys:
`a ≼ b ↔ ¬ (b < a)`.  For `(int, int)` pairs `<` is lexicographic; for
`(str,)` tuples it is string comparison.  A comparison between a pair key and
a string key raises `TypeError` in Python; `sortArchives` never evaluates
`keyLEb` on such a pair (it takes the reversed-list branch instead), so the
values chosen for the two cross-type cases below are arbitrary. -/
def keyLEb : ArchKey → ArchKey → Bool
  | .ym y1 m1, .ym y2 m2 => decide (y1 < y2) || (decide (y1 = y2) && decide (m1 ≤ m2))
  | .str s1, .str s2 => !(charsLT s2.data s1.data)
  | .ym _ _, .str _ => true
  | .str _, .ym _ _ => false

/-- Key order lifted to URLs, as used by `sorted(archives, key=archive_key)`. -/
def urlLE (a b : String) : Prop := keyLEb (archive_key a) (archive_key b) = true

instance : DecidableRel urlLE := fun a b => instDecidableEqBool (keyLEb (archive_key a) (archive_key b)) true

/-- Lines 86-100 of the script: sort the archive URLs by `archive_key`.
Python's Timsort raises `TypeError` as soon as it compares a `(int, int)` key
with a `(str,)` key — with both kinds present some cross-kind comparison is
unavoidable for any comparison sort, and with only one kind present none ever
occurs — and the surrounding `except` then returns the reversed list. -/
def sortArchives (archives : List String) : List String :=
  let keys := archives.map archive_key
  if keys.all keyIsYM || keys.all (fun k => !keyIsYM k) then
    archives.insertionSort urlLE
  else
    archives.reverse

/-- `get_archives_sorted`: a non-200 index response yields `[]`; a successful
response yields the sorted archive list.  The `requests.get` call is not
inside any `try`, so a network-level exception propagates to the caller,
modelled by `Except.error`. -/
def get_archives_sorted (indexFetch : Fetch (List String)) : Except Unit (List String) :=
  match indexFetch with
  | .netError => .error ()
  | .response status body => if status ≠ 200 then .ok [] else .ok (sortArchives body)

/-- The per-game sort key of line 119:
`g.get("end_time", g.get("time", 0))`. -/
def endKey (g : Game) : Int := g.end_time.getD (g.time.getD 0)

/-- Ascending order on games by `endKey` (Python stable sort; the keys are
all integers here, so the `except` fallback of line 121 is unreachable). -/
def gameLE (g h : Game) : Prop := endKey g ≤ endKey h

instance : DecidableRel gameLE := fun g h => (inferInstance : Decidable (endKey g ≤ endKey h))

/-- Lines 117-123: sort one month's games by `end_time`, then keep those whose
`time_class` and `rules` match. -/
def processPage (gs : List Game) (tc : String) : List Game :=
  (gs.insertionSort gameLE).filter (fun g => g.time_class == some tc && g.rules == some RULES)

/-- The archive loop of lines 110-130: skip a page on a network exception or a
non-200 status, otherwise append the month's sorted, filtered games and stop
as soon as the accumulated count reaches `ngames`. -/
def collectLoop (pageFetch : String → Fetch (List Game)) (tc : String) (ngames : Nat) :
    List String → List Game → List Game
  | [], acc => acc
  | url :: rest, acc =>
    match pageFetch url with
    | .netError => collectLoop pageFetch tc ngames rest acc
    | .response status body =>
      if status ≠ 200 then collectLoop pageFetch tc ngames rest acc
      else
        let acc2 := acc ++ processPage body tc
        if ngames ≤ acc2.length then acc2
        else collectLoop pageFetch tc ngames rest acc2

/-- Python `l[-n:]`: for positive `n` the last `n` elements; for `n = 0` the
slice is `l[-0:] = l[0:]`, i.e. the whole list, not the empty one. -/
def lastN (n : Nat) (l : List α) : List α :=
  if n = 0 then l else l.drop (l.length - n)

/-- `collect_games_for_timeclass`: fetch and sort the archive index (an
exception there propagates), return `[]` when there are no archives, else run
the collection loop and keep the most recent `ngames` games. -/
def collect_games_for_timeclass (indexFetch : Fetch (List String))
    (pageFetch : String → Fetch (List Game)) (time_class : String) (ngames : Nat) :
    Except Unit (List Game) :=
  match get_archives_sorted indexFetch with
  | .error e => .error e
  | .ok archives =>
    if archives.isEmpty then .ok []
    else
      let collected := collectLoop pageFetch time_class ngames archives []
      .ok (if ngames < collected.length then lastN ngames collected else collected)

/-- The body of the loop in `ratings_from_games` (lines 141-149): take the
white rating when the white username matches case-insensitively, else the
black rating; every missing key defaults (`{}` then `""` / `0`), so a record
with absent sub-objects or ratings yields `0` rather than being dropped. -/
def rating_for_game (username : String) (g : Game) : Int :=
  if pyLower ((g.white.getD {}).username.getD "") = pyLower username then
    (g.white.getD {}).rating.getD 0
  else
    (g.black.getD {}).rating.getD 0

/-- `ratings_from_games`: one output rating per input game, in order. -/
def ratings_from_games (games : List Game) (username : String) : List Int :=
  games.map (rating_for_game username)

/-- `nice_ymax` (lines 153-163): `ceil((max + step) / step) * step + 2 * step`,
with 100 for an empty list.  `max(yvals)` is the left fold Python computes. -/
def nice_ymax (yvals : List Int) : Int :=
  match yvals with
  | [] => 100
  | x :: xs =>
    let ymax := xs.foldl max x
    let raw := ((ymax + DOT_STEP_RATING + (DOT_STEP_RATING - 1)) / DOT_STEP_RATING) * DOT_STEP_RATING
    raw + DOT_STEP_RATING * 2

/-- The dot rows of one column (lines 197 and 244): `floor(r / 8)` dots, the
`k`-th (from 1) centred at `(k - 0.5) * 8 = 8*(k-1) + 4`, i.e. measured up
from zero, half a step above the axis. -/
def dotYs (r : Int) : List Int :=
  (List.range (max 0 (r / DOT_STEP_RATING)).toNat).map (fun (k : Nat) => 8 * (k : Int) + 4)

/-- The y-tick count heuristic of lines 263-264:
`max(2, min(MAX_Y_TICKS, 1 + max(1, ceil(y_max / (step * 4)))))`. -/
def numTicksFor (ymax : Int) : Int :=
  max 2 (min (MAX_Y_TICKS : Int) (1 + max 1 ((ymax + 31) / 32)))

/-- `np.linspace a b n`: `n` evenly spaced values from `a` to `b`. -/
def linspace (a b : ℚ) (n : Nat) : List ℚ :=
  (List.range n).map (fun (j : Nat) => a + (j : ℚ) * ((b - a) / ((n : ℚ) - 1)))

/-- The x-tick positions of lines 270-271: five checkpoints, deduplicated and
sorted, when more than four columns exist, else every index.  (The sort makes
the result independent of which duplicate occurrence a dedup keeps.) -/
def xticksFor (n : Nat) : List Nat :=
  if 4 < n then
    (([0, n / 4, n / 2, 3 * n / 4, n - 1] : List Nat).dedup).insertionSort (· ≤ ·)
  else
    List.range n

/-- The observable geometry `render_timeclass_svg` computes for a non-empty
series: vertical axis limits (line 234), y-tick values (lines 263-266),
x-tick positions (lines 270-272) and the dot rows of every column
(lines 240-247). -/
structure ChartGeometry where
  yLow : Int
  yHigh : Int
  yticks : List ℚ
  xticks : List Nat
  columns : List (List Int)
deriving DecidableEq

/-- The layout computation of `render_timeclass_svg` on a rating series:
`y_min = 0`, `y_max = nice_ymax(ratings)`, limits `y_min - step/2` and
`y_max + step/2`, ticks from `linspace(y_min, y_max, num_ticks)`, and one dot
column per rating. -/
def chartGeometry (ratings : List Int) : ChartGeometry :=
  let ymax := nice_ymax ratings
  { yLow := 0 - DOT_STEP_RATING / 2
    yHigh := ymax + DOT_STEP_RATING / 2
    yticks := linspace 0 (ymax : ℚ) (numTicksFor ymax).toNat
    xticks := xticksFor ratings.length
    columns := ratings.map dotYs }

/-- What `render_timeclass_svg` writes to `outpath`: the minimal "no data"
card of lines 174-183 when the series is empty, else the chart. -/
inductive RenderResult where
  | noData (path : String) (message : String)
  | chart (path : String) (geometry : ChartGeometry)
deriving DecidableEq

/-- `render_timeclass_svg` as a function from the series to the written
output (the drawing backend is external; styling constants do not affect
which file is produced or the geometry above). -/
def render_timeclass_svg (time_class : String) (ratings : List Int) (outpath : String) :
    RenderResult :=
  if ratings.isEmpty then RenderResult.noData outpath "No data available"
  else RenderResult.chart outpath (chartGeometry ratings)

/-- The per-category output path `os.path.join(OUTPUT_DIR, f"rating-{tc}.svg")`
built in `main` (line 331). -/
def outputFile (time_class : String) : String :=
  OUTPUT_DIR ++ "/" ++ "rating-" ++ time_class ++ ".svg"

/-- Modelled from the spec: the dot column the specification describes for a
point of value `r` — an arithmetic sequence starting at `floatBase` (the
series minimum), stepping by `step`, inclusive of a final dot at-or-above
`r`.  Used only to compare the specified layout with the implemented one. -/
def specDotColumn (floatBase r step : Int) : List Int :=
  let K := (max 0 ((r - floatBase + step - 1) / step)).toNat
  (List.range (K + 1)).map (fun (k : Nat) => floatBase + step * (k : Int))

/-- The spec's notion of the target player occupying one side: the side's
username, lowercased, equals the configured player name, lowercased. -/
def caseMatches (username : String) (p : Player) : Prop :=
  ∃ n, p.username = some n ∧ pyLower n = pyLower username

instance {ε α : Type} [DecidableEq ε] [DecidableEq α] : DecidableEq (Except ε α) := fun a b =>
  match a, b with
  | .error e, .error f =>
    match decEq e f with
    | isTrue h => isTrue (by rw [h])
    | isFalse h => isFalse (fun c => by injection c; contradiction)
  | .error _, .ok _ => isFalse (fun c => Except.noConfusion c)
  | .ok _, .error _ => isFalse (fun c => Except.noConfusion c)
  | .ok x, .ok y =>
    match decEq x y with
    | isTrue h => isTrue (by rw [h])
    | isFalse h => isFalse (fun c => by injection c; contradiction)

/-- Demo game: the target player, on the black side, rated 1200 (blitz). -/
def gA : Game :=
  { white := some { username := some "X", rating := some 1 },
    black := some { username := some "Wawa_wuwa", rating := some 1200 },
    time_class := some "blitz", rules := some "chess", end_time := some 1 }

/-- Demo game: like `gA`, one time unit later. -/
def gB : Game := { gA with end_time := some 2 }

/-- Demo game: like `gA`, two time units later. -/
def gC : Game := { gA with end_time := some 3 }

/-- Demo page server: the first month holds `gA, gB`, later months `gC`. -/
def demoPf : String → Fetch (List Game) :=
  fun u => if u = "p/2020/01" then .response 200 [gA, gB] else .response 200 [gC]

/-- Demo page server with everything on a single page. -/
def demoPf1 : String → Fetch (List Game) :=
  fun _ => .response 200 [gA, gB, gC]

/-- Demo game with the target player on the white side (uppercased name). -/
def demoW : Game :=
  { white := some { username := some "WAWA_WUWA", rating := some 1500 },
    black := some { username := some "opp", rating := some 900 },
    time_class := some "blitz", rules := some "chess", end_time := some 10 }

/-- Demo game with the target player on the black side (mixed-case name). -/
def demoB : Game :=
  { white := some { username := some "opp2", rating := some 800 },
    black := some { username := some "wawa_WUWA", rating := some 1488 },
    time_class := some "blitz", rules := some "chess", end_time := some 11 }

/-! ### Helper lemmas -/

lemma charsLT_asymm : ∀ a b : List Char, charsLT a b = true → charsLT b a = false := by
  intro a
  induction a with
  | nil =>
    intro b h
    cases b with
    | nil => exact absurd h (by simp [charsLT])
    | cons c cs => simp [charsLT]
  | cons x xs ih =>
    intro b h
    cases b with
    | nil => exact absurd h (by simp [charsLT])
    | cons y ys =>
      by_cases h1 : x.toNat < y.toNat
      · simp only [charsLT]
        rw [if_neg (by omega : ¬ y.toNat < x.toNat), if_pos h1]
      · by_cases h2 : y.toNat < x.toNat
        · simp [charsLT, h1, h2] at h
        · simp only [charsLT, if_neg h1, if_neg h2] at h
          simp only [charsLT, if_neg h2, if_neg h1]
          exact ih ys h

lemma charsLT_conn : ∀ c a b : List Char,
    charsLT c a = true → charsLT c b = true ∨ charsLT b a = true := by
  intro c
  induction c with
  | nil =>
    intro a b h
    cases a with
    | nil => exact absurd h (by simp [charsLT])
    | cons ah as =>
      cases b with
      | nil => right; simp [charsLT]
      | cons bh bs => left; simp [charsLT]
  | cons ch cs ih =>
    intro a b h
    cases a with
    | nil => exact absurd h (by simp [charsLT])
    | cons ah as =>
      cases b with
      | nil => right; simp [charsLT]
      | cons bh bs =>
        by_cases h1 : ch.toNat < ah.toNat
        · by_cases h2 : ch.toNat < bh.toNat
          · left; simp [charsLT, h2]
          · right
            simp [charsLT, (by omega : bh.toNat < ah.toNat)]
        · by_cases h2 : ah.toNat < ch.toNat
          · simp [charsLT, h1, h2] at h
          · simp only [charsLT, if_neg h1, if_neg h2] at h
            by_cases h3 : ch.toNat < bh.toNat
            · left; simp [charsLT, h3]
            · by_cases h4 : bh.toNat < ch.toNat
              · right
                simp [charsLT, (by omega : bh.toNat < ah.toNat)]
              · rcases ih as bs h with hl | hr
                · left
                  simp only [charsLT, if_neg h3, if_neg h4]
                  exact hl
                · right
                  simp only [charsLT, if_neg (by omega : bh.toNat < ah.toNat → False),
                    if_neg (by omega : ah.toNat < bh.toNat → False)]
                  exact hr

lemma keyLEb_total : ∀ k1 k2 : ArchKey, keyLEb k1 k2 = true ∨ keyLEb k2 k1 = true := by
  intro k1 k2
  cases k1 with
  | ym y1 m1 =>
    cases k2 with
    | ym y2 m2 =>
      simp only [keyLEb, Bool.or_eq_true, Bool.and_eq_true, decide_eq_true_eq]
      omega
    | str s => left; rfl
  | str s1 =>
    cases k2 with
    | ym y m => right; rfl
    | str s2 =>
      cases h : charsLT s2.data s1.data
      · left; simp [keyLEb, h]
      · right; simp [keyLEb, charsLT_asymm _ _ h]

lemma keyLEb_trans : ∀ k1 k2 k3 : ArchKey,
    keyLEb k1 k2 = true → keyLEb k2 k3 = true → keyLEb k1 k3 = true := by
  intro k1 k2 k3 h12 h23
  cases k1 with
  | ym y1 m1 =>
    cases k3 with
    | str s => rfl
    | ym y3 m3 =>
      cases k2 with
      | str s => exact absurd h23 (by simp [keyLEb])
      | ym y2 m2 =>
        simp only [keyLEb, Bool.or_eq_true, Bool.and_eq_true, decide_eq_true_eq] at h12 h23 ⊢
        omega
  | str s1 =>
    cases k2 with
    | ym y m => exact absurd h12 (by simp [keyLEb])
    | str s2 =>
      cases k3 with
      | ym y m => exact absurd h23 (by simp [keyLEb])
      | str s3 =>
        simp only [keyLEb, Bool.not_eq_true'] at h12 h23 ⊢
        cases h : charsLT s3.data s1.data
        · rfl
        · rcases charsLT_conn s3.data s1.data s2.data h with hc | hc
          · rw [h23] at hc; exact absurd hc (by simp)
          · rw [h12] at hc; exact absurd hc (by simp)

instance : IsTotal String urlLE :=
  ⟨fun a b => keyLEb_total (archive_key a) (archive_key b)⟩

instance : IsTrans String urlLE :=
  ⟨fun a b c => keyLEb_trans (archive_key a) (archive_key b) (archive_key c)⟩

lemma sortArchives_singleton (u : String) : sortArchives [u] = [u] := by
  unfold sortArchives
  cases h : keyIsYM (archive_key u) <;>
    simp [h, List.insertionSort, List.orderedInsert]

lemma foldl_max_le_of_le : ∀ (xs : List Int) (a b : Int), a ≤ b → a ≤ xs.foldl max b
  | [], _, _, h => h
  | x :: xs, a, b, h =>
    foldl_max_le_of_le xs a (max b x) (le_trans h (le_max_left _ _))

lemma pyMax_ge (x : Int) (xs : List Int) (r : Int) (h : r ∈ x :: xs) : r ≤ xs.foldl max x := by
  induction xs generalizing x with
  | nil =>
    rw [List.mem_singleton] at h
    exact le_of_eq (h.trans rfl)
  | cons y ys ih =>
    rcases List.mem_cons.mp h with h1 | h2
    · subst h1
      exact foldl_max_le_of_le ys r (max r y) (le_max_left r y)
    · rcases List.mem_cons.mp h2 with h3 | h4
      · subst h3
        exact foldl_max_le_of_le ys r (max x r) (le_max_right x r)
      · exact ih (max x y) (List.mem_cons_of_mem _ h4)

lemma linspace_head (a b : ℚ) (n : Nat) (hn : n ≠ 0) : (linspace a b n).head? = some a := by
  unfold linspace
  cases n with
  | zero => exact absurd rfl hn
  | succ m =>
    rw [List.range_succ_eq_map]
    simp

lemma rangeMap_head (f : Nat → Int) (n : Nat) :
    ((List.range n).map f).head? = if n = 0 then none else some (f 0) := by
  cases n with
  | zero => rfl
  | succ m =>
    rw [List.range_succ_eq_map]
    simp

lemma chain_step8 (n : Nat) :
    List.Chain' (fun a b : Int => b = a + 8)
      ((List.range n).map (fun (k : Nat) => 8 * (k : Int) + 4)) := by
  have hnat : List.Chain' (fun a b : Nat => b = a + 1) (List.range n) := by
    cases n with
    | zero => simp
    | succ m =>
      rw [List.chain'_range_succ]
      intro j _
      rfl
  refine List.chain'_map_of_chain' _ ?_ hnat
  intro a b hab
  subst hab
  push_cast
  ring

lemma ratings_from_games_getIdx (games : List Game) (u : String) (i : Nat)
    (h : i < games.length) :
    (ratings_from_games games u)[i]? = some (rating_for_game u (games.get ⟨i, h⟩)) := by
  unfold ratings_from_games
  rw [List.getElem?_map, List.getElem?_eq_getElem h]
  simp [List.get_eq_getElem]

lemma get_archives_sorted_response (status : Nat) (body : List String) :
    get_archives_sorted (.response status body)
      = if status ≠ 200 then .ok [] else .ok (sortArchives body) := rfl

lemma collectLoop_cons200 (pf : String → Fetch (List Game)) (tc : String) (n : Nat)
    (url : String) (rest : List String) (acc gs : List Game)
    (hpf : pf url = .response 200 gs) :
    collectLoop pf tc n (url :: rest) acc =
      if n ≤ (acc ++ processPage gs tc).length then acc ++ processPage gs tc
      else collectLoop pf tc n rest (acc ++ processPage gs tc) := by
  rw [collectLoop]
  rw [hpf]
  rfl

lemma collect_games_eq (indexFetch : Fetch (List String))
    (pf : String → Fetch (List Game)) (tc : String) (n : Nat) (archives : List String)
    (h : get_archives_sorted indexFetch = .ok archives) :
    collect_games_for_timeclass indexFetch pf tc n =
      (if archives.isEmpty then .ok []
       else
         .ok (if n < (collectLoop pf tc n archives []).length
              then lastN n (collectLoop pf tc n archives [])
              else collectLoop pf tc n archives [])) := by
  unfold collect_games_for_timeclass
  rw [h]

/-! ### Claim C1 -/

/-- Claim C1, counterexample: a game record with no `white` and no `black`
sub-object is not skipped by `ratings_from_games` — it contributes the entry
`0` to the output series, so the output is not empty as the claim requires. -/
theorem malformed_record_contributes_entry :
    ratings_from_games [({} : Game)] USERNAME = [0]
    ∧ ratings_from_games [({} : Game)] USERNAME ≠ [] := by
  constructor
  · decide
  · decide

/-- Claim C1, amended: a malformed record (missing both player sub-objects)
never invalidates the rest of the batch — extraction continues, the records
before and after it are processed exactly as they would be on their own — but
the malformed record is not skipped: it contributes the placeholder value `0`
at its position in the output series. -/
theorem ratings_from_games_malformed_contributes_zero (pre post : List Game) (u : String)
    (g : Game) (hw : g.white = none) (hb : g.black = none) :
    ratings_from_games (pre ++ g :: post) u
      = ratings_from_games pre u ++ 0 :: ratings_from_games post u := by
  unfold ratings_from_games
  rw [List.map_append, List.map_cons]
  have hg : rating_for_game u g = 0 := by
    unfold rating_for_game
    rw [hw, hb]
    split <;> rfl
  rw [hg]

/-- Witness for the amended C1 theorem at a concrete malformed record. -/
theorem ratings_from_games_malformed_contributes_zero_witness :
    ratings_from_games ([gA] ++ ({} : Game) :: [gB]) USERNAME
      = ratings_from_games [gA] USERNAME ++ 0 :: ratings_from_games [gB] USERNAME :=
  ratings_from_games_malformed_contributes_zero [gA] [gB] USERNAME {} rfl rfl

/-! ### Claim C9 -/

/-- Claim C9: `ratings_from_games` returns exactly one rating per input game,
in order — output index `i` always corresponds to input game `i` — and a
record whose rating information is missing (in particular one with no player
sub-objects at all) contributes the value `0` at its position rather than
being dropped. -/
theorem ratings_from_games_length_and_positional (games : List Game) (u : String) :
    (ratings_from_games games u).length = games.length
    ∧ (∀ i (h : i < games.length),
        (ratings_from_games games u)[i]? = some (rating_for_game u (games.get ⟨i, h⟩)))
    ∧ (∀ g : Game, (g.white.getD {}).rating = none → (g.black.getD {}).rating = none →
        rating_for_game u g = 0) := by
  refine ⟨by simp [ratings_from_games], fun i h => ratings_from_games_getIdx games u i h,
    fun g hw hb => ?_⟩
  unfold rating_for_game
  split
  · rw [hw]; rfl
  · rw [hb]; rfl

/-- Witness for C9 at a concrete malformed record. -/
theorem ratings_from_games_length_and_positional_witness :
    ((ratings_from_games [({} : Game)] USERNAME)[0]?
        = some (rating_for_game USERNAME ({} : Game)))
    ∧ rating_for_game USERNAME ({} : Game) = 0 :=
  ⟨(ratings_from_games_length_and_positional [({} : Game)] USERNAME).2.1 0 (by decide),
   (ratings_from_games_length_and_positional [({} : Game)] USERNAME).2.2 {} rfl rfl⟩

/-! ### Claim C6 -/

/-- Claim C6: for well-formed records, each extracted rating is the rating of
whichever side's username case-insensitively equals the configured player
name: if the white side matches, the white rating is returned; if the black
side matches and the white side does not, the black rating is returned.  This
holds in particular when the player alternates between white and black. -/
theorem ratings_match_player_side (games : List Game) (u : String)
    (hu : pyLower u ≠ "") (i : Nat) (h : i < games.length) :
    (∀ p r, (games.get ⟨i, h⟩).white = some p → p.rating = some r → caseMatches u p →
      (ratings_from_games games u)[i]? = some r)
    ∧ (∀ p r, (games.get ⟨i, h⟩).black = some p → p.rating = some r → caseMatches u p →
      (∀ q, (games.get ⟨i, h⟩).white = some q → ¬ caseMatches u q) →
      (ratings_from_games games u)[i]? = some r) := by
  rw [ratings_from_games_getIdx games u i h]
  constructor
  · rintro p r hwhite hrating ⟨n, hn, hmatch⟩
    unfold rating_for_game
    rw [hwhite, Option.getD_some, hn, Option.getD_some, if_pos hmatch, hrating]
    rfl
  · rintro p r hblack hrating ⟨n, hn, _⟩ hnw
    unfold rating_for_game
    rw [if_neg ?notwhite, hblack, Option.getD_some, hrating]
    · rfl
    case notwhite =>
      cases hgw : (games.get ⟨i, h⟩).white with
      | none =>
        intro hc
        exact hu (hc.symm.trans (by decide))
      | some q =>
        rw [Option.getD_some]
        cases hqn : q.username with
        | none =>
          intro hc
          exact hu (hc.symm.trans (by decide))
        | some m =>
          rw [Option.getD_some]
          intro hc
          exact hnw q hgw ⟨m, hqn, hc⟩

/-- Witness for C6: the target player alternates — white (uppercase name) in
the first game, black (mixed-case name) in the second — and each output
entry is the matching side's rating. -/
theorem ratings_match_player_side_witness :
    (ratings_from_games [demoW, demoB] "Wawa_wuwa")[0]? = some 1500
    ∧ (ratings_from_games [demoW, demoB] "Wawa_wuwa")[1]? = some 1488 := by
  constructor
  · exact (ratings_match_player_side [demoW, demoB] "Wawa_wuwa" (by decide) 0 (by decide)).1
      { username := some "WAWA_WUWA", rating := some 1500 } 1500 rfl rfl
      ⟨"WAWA_WUWA", rfl, by decide⟩
  · refine (ratings_match_player_side [demoW, demoB] "Wawa_wuwa" (by decide) 1 (by decide)).2
      { username := some "wawa_WUWA", rating := some 1488 } 1488 rfl rfl
      ⟨"wawa_WUWA", rfl, by decide⟩ ?_
    rintro q hq ⟨n, hn, hmatch⟩
    have hq2 : q = { username := some "opp2", rating := some 800 } :=
      Option.some.inj hq.symm
    subst hq2
    have hn2 : n = "opp2" := Option.some.inj hn.symm
    subst hn2
    exact absurd hmatch (by decide)

/-! ### Claim C4 -/

/-- Claim C4, counterexample: with two archive pages holding 2 + 1 matching
games and `ngames = 2`, the loop stops after the first page (its count
already reaches the limit), so the newest game `gC` — on the second,
never-fetched page — is dropped.  The claim instead demands the
chronologically last 2 entries of the full filtered input, `[gB, gC]`. -/
theorem collect_games_drops_newest_across_pages :
    collect_games_for_timeclass (.response 200 ["p/2020/01", "p/2020/02"]) demoPf "blitz" 2
      = .ok [gA, gB]
    ∧ lastN 2 (processPage ([gA, gB] ++ [gC]) "blitz") = [gB, gC]
    ∧ ([gA, gB] : List Game) ≠ [gB, gC] := by
  refine ⟨by decide, by decide, by decide⟩

/-- Claim C4, amended: for any positive limit `ngames`, the result is in
chronological (input) order and its length never exceeds `ngames`, but the
"last `limit` entries" guarantee holds for the games collected up to the page
at which the limit is first reached; in particular, when all records sit on a
single archive page, the result is exactly the chronologically last `ngames`
entries of that page's sorted, filtered games.  (For the degenerate limit 0
the script's `collected[-0:]` keeps the whole list instead.) -/
theorem collect_games_single_page_last_limit (gs : List Game) (tc url : String) (n : Nat)
    (hn : n ≠ 0) (pf : String → Fetch (List Game)) (hpf : pf url = .response 200 gs) :
    collect_games_for_timeclass (.response 200 [url]) pf tc n = .ok (lastN n (processPage gs tc))
    ∧ (lastN n (processPage gs tc)).length ≤ n := by
  have h200 : ¬ ((200 : Nat) ≠ 200) := fun hh => hh rfl
  have hloop : collectLoop pf tc n [url] [] = processPage gs tc := by
    rw [collectLoop_cons200 pf tc n url [] [] gs hpf]
    simp only [List.nil_append]
    rw [show collectLoop pf tc n [] (processPage gs tc) = processPage gs tc from rfl]
    exact ite_self _
  constructor
  · have harch : get_archives_sorted (.response 200 [url]) = .ok [url] := by
      rw [get_archives_sorted_response, if_neg h200, sortArchives_singleton]
    rw [collect_games_eq _ pf tc n [url] harch]
    simp only [List.isEmpty_cons, Bool.false_eq_true, if_false, hloop]
    by_cases hlt : n < (processPage gs tc).length
    · rw [if_pos hlt]
    · rw [if_neg hlt]
      unfold lastN
      rw [if_neg hn, Nat.sub_eq_zero_of_le (by omega), List.drop_zero]
  · unfold lastN
    rw [if_neg hn, List.length_drop]
    omega

/-- Witness for the amended C4 theorem: three matching games on one page with
`ngames = 2`. -/
theorem collect_games_single_page_last_limit_witness :
    collect_games_for_timeclass (.response 200 ["p/2020/01"]) demoPf1 "blitz" 2
      = .ok (lastN 2 (processPage [gA, gB, gC] "blitz"))
    ∧ (lastN 2 (processPage [gA, gB, gC] "blitz")).length ≤ 2 :=
  collect_games_single_page_last_limit [gA, gB, gC] "blitz" "p/2020/01" 2 (by decide)
    demoPf1 rfl

/-! ### Claim C5 -/

/-- Claim C5, counterexample: when the archive-index fetch raises a
network-level exception (rather than returning a non-success response), the
exception propagates out of `collect_games_for_timeclass` — there is no
`try` around the index fetch — so the extraction does not return the empty
series the claim requires. -/
theorem index_network_exception_propagates :
    collect_games_for_timeclass Fetch.netError (fun _ => Fetch.netError) "blitz" 100
      = .error ()
    ∧ (Except.error () : Except Unit (List Game)) ≠ .ok [] := by
  exact ⟨rfl, fun hc => by cases hc⟩

/-- Claim C5, amended: when the archive-index fetch returns a non-success
HTTP response, the extraction returns the empty series (for every page
server, category and limit) without failing; a network-level exception
during the index fetch instead propagates uncaught. -/
theorem index_nonsuccess_yields_empty (status : Nat) (hs : status ≠ 200)
    (body : List String) (pf : String → Fetch (List Game)) (tc : String) (n : Nat) :
    collect_games_for_timeclass (.response status body) pf tc n = .ok []
    ∧ get_archives_sorted (.response status body) = .ok [] := by
  have h1 : get_archives_sorted (.response status body) = .ok [] := by
    rw [get_archives_sorted_response, if_pos hs]
  refine ⟨?_, h1⟩
  rw [collect_games_eq _ pf tc n [] h1]
  rfl

/-- Witness for the amended C5 theorem at a concrete 500 response. -/
theorem index_nonsuccess_yields_empty_witness :
    collect_games_for_timeclass (.response 500 ["p/2020/01"]) demoPf "blitz" 100 = .ok []
    ∧ get_archives_sorted (.response 500 ["p/2020/01"]) = .ok [] :=
  index_nonsuccess_yields_empty 500 (by decide) ["p/2020/01"] demoPf "blitz" 100

/-! ### Claim C10 -/

/-- Claim C10, counterexample: a list mixing `/YYYY/MM`-parseable URLs with an
unparseable one is not sorted by key at all — the key comparison raises
`TypeError` in Python and the function returns the reversed input, here
placing 2020/01 before 2019/01. -/
theorem mixed_keys_reverse_not_sorted :
    sortArchives ["p/2019/01", "p/2020/01", "nodate"] = ["nodate", "p/2020/01", "p/2019/01"]
    ∧ archive_key "p/2019/01" = ArchKey.ym 2019 1
    ∧ archive_key "p/2020/01" = ArchKey.ym 2020 1
    ∧ archive_key "nodate" = ArchKey.str "nodate"
    ∧ ¬ List.Sorted urlLE (sortArchives ["p/2019/01", "p/2020/01", "nodate"]) := by
  refine ⟨by decide, by decide, by decide, by decide, by decide⟩

/-- Claim C10, amended: when every URL's key parses to a `(year, month)` pair,
or none does (so all keys are strings), the archive list is returned sorted
ascending by key and is a permutation of the input; when the two key kinds
are mixed, the comparison raises and the function returns the reversed input
instead. -/
theorem homogeneous_keys_sorted (archives : List String)
    (hcomp : ((archives.map archive_key).all keyIsYM
        || (archives.map archive_key).all (fun k => !keyIsYM k)) = true) :
    List.Sorted urlLE (sortArchives archives) ∧ (sortArchives archives).Perm archives := by
  unfold sortArchives
  rw [if_pos hcomp]
  exact ⟨List.sorted_insertionSort urlLE archives, List.perm_insertionSort urlLE archives⟩

/-- Witness for the amended C10 theorem on an all-parseable archive list. -/
theorem homogeneous_keys_sorted_witness :
    List.Sorted urlLE (sortArchives ["p/2020/02", "p/2019/12"])
    ∧ (sortArchives ["p/2020/02", "p/2019/12"]).Perm ["p/2020/02", "p/2019/12"] :=
  homogeneous_keys_sorted ["p/2020/02", "p/2019/12"] (by decide)

/-! ### Claim C2 -/

/-- Claim C2, counterexample: for the series `[16, 24]` the spec's dot column
for index 0 (value 16, `floatBase = min = 16`) is the single dot `[16]`, but
the code's column is `[4, 12]` — measured from zero, not from the series
minimum, and its final dot lies below the value, not at-or-above it. -/
theorem dot_columns_not_from_float_base :
    (chartGeometry [16, 24]).columns = [[4, 12], [4, 12, 20]]
    ∧ specDotColumn 16 16 8 = [16]
    ∧ ([4, 12] : List Int) ≠ [16] := by
  refine ⟨by decide, by decide, by decide⟩

/-- Claim C2, amended: the dot column of index `i` with value `r` is an
arithmetic sequence stepping by `dotStep = 8` that starts at `4` (half a step
above zero) whenever `r ≥ 8`, independent of the series minimum; every dot
lies at least half a step below `r` (so the stack is measured from zero and
stops below the value, rather than starting at the series minimum and ending
at-or-above it). -/
theorem dot_columns_measured_from_zero (ratings : List Int) :
    (chartGeometry ratings).columns = ratings.map dotYs
    ∧ ∀ r ∈ ratings,
        ((dotYs r).head? = if 8 ≤ r then some 4 else none)
        ∧ List.Chain' (fun a b => b = a + 8) (dotYs r)
        ∧ (∀ y ∈ dotYs r, 4 ≤ y ∧ y + 4 ≤ r) := by
  refine ⟨rfl, fun r _ => ⟨?_, ?_, ?_⟩⟩
  · unfold dotYs DOT_STEP_RATING
    rw [rangeMap_head]
    by_cases h8 : 8 ≤ r
    · rw [if_pos h8, if_neg (by omega : ¬ (max 0 (r / 8)).toNat = 0)]
      norm_num
    · rw [if_neg h8, if_pos (by omega : (max 0 (r / 8)).toNat = 0)]
  · exact chain_step8 _
  · intro y hy
    unfold dotYs DOT_STEP_RATING at hy
    rw [List.mem_map] at hy
    obtain ⟨k, hk, rfl⟩ := hy
    rw [List.mem_range] at hk
    omega

/-- Witness for the amended C2 theorem: the first dot of the column for value
16 sits at 4 and at least half a step below the value. -/
theorem dot_columns_measured_from_zero_witness :
    (4 : Int) ≤ 4 ∧ (4 : Int) + 4 ≤ 16 :=
  ((dot_columns_measured_from_zero [16, 24]).2 16 (by decide)).2.2 4 (by decide)

/-! ### Claim C3 -/

/-- Claim C3, counterexample: for the series `[1200]` (so
`floatBase = min = 1200`) the lowest y-tick is 0, far below the logical
floor — the axis is anchored at zero, not at the series minimum. -/
theorem lowest_ytick_below_float_base :
    (chartGeometry [1200]).yticks.head? = some 0 ∧ ((0 : ℚ) < 1200) := by
  constructor
  · exact linspace_head 0 ((nice_ymax [1200] : Int) : ℚ)
      (numTicksFor (nice_ymax [1200])).toNat (by decide)
  · norm_num

/-- Claim C3, amended: the y-tick count always lies between 2 and
`maxYTicks`, but the lowest tick equals `y_min = 0` — below the series
minimum for every positive-valued series — rather than at-or-above
`floatBase`. -/
theorem ytick_count_bounded_lowest_is_zero (ratings : List Int) (_hne : ratings ≠ []) :
    (chartGeometry ratings).yticks.length ≤ MAX_Y_TICKS
    ∧ 2 ≤ (chartGeometry ratings).yticks.length
    ∧ (chartGeometry ratings).yticks.head? = some 0 := by
  have hy : (chartGeometry ratings).yticks
      = linspace 0 ((nice_ymax ratings : Int) : ℚ) (numTicksFor (nice_ymax ratings)).toNat := rfl
  have hlen : (chartGeometry ratings).yticks.length = (numTicksFor (nice_ymax ratings)).toNat := by
    rw [hy]
    unfold linspace
    rw [List.length_map, List.length_range]
  have hnt : 2 ≤ (numTicksFor (nice_ymax ratings)).toNat
      ∧ (numTicksFor (nice_ymax ratings)).toNat ≤ 6 := by
    unfold numTicksFor MAX_Y_TICKS
    omega
  refine ⟨?_, ?_, ?_⟩
  · rw [hlen]; unfold MAX_Y_TICKS; omega
  · rw [hlen]; omega
  · rw [hy]
    exact linspace_head _ _ _ (by omega)

/-- Witness for the amended C3 theorem on the series `[1200]`. -/
theorem ytick_count_bounded_lowest_is_zero_witness :
    (chartGeometry [1200]).yticks.length ≤ MAX_Y_TICKS
    ∧ 2 ≤ (chartGeometry [1200]).yticks.length
    ∧ (chartGeometry [1200]).yticks.head? = some 0 :=
  ytick_count_bounded_lowest_is_zero [1200] (by decide)

/-! ### Claim C7 -/

/-- Claim C7: for a non-empty series of (non-negative) ratings, the computed
vertical axis bounds strictly bracket the data: the lower limit
`y_min - step/2 = -4` is strictly below every rating (hence below the
minimum) and the upper limit `nice_ymax + step/2` is strictly above every
rating (hence above the maximum). -/
theorem chart_bounds_strict (ratings : List Int) (hne : ratings ≠ [])
    (hpos : ∀ r ∈ ratings, 0 ≤ r) :
    ∀ r ∈ ratings, (chartGeometry ratings).yLow < r ∧ r < (chartGeometry ratings).yHigh := by
  intro r hr
  cases ratings with
  | nil => exact absurd rfl hne
  | cons x xs =>
    have hmax : r ≤ xs.foldl max x := pyMax_ge x xs r hr
    have hlow : (chartGeometry (x :: xs)).yLow = 0 - 8 / 2 := rfl
    have hhigh : (chartGeometry (x :: xs)).yHigh
        = ((xs.foldl max x + 8 + 7) / 8) * 8 + 8 * 2 + 8 / 2 := rfl
    have h0 := hpos r hr
    constructor
    · rw [hlow]; omega
    · rw [hhigh]; omega

/-- Witness for C7 on the series `[1200]`. -/
theorem chart_bounds_strict_witness :
    (chartGeometry [1200]).yLow < 1200 ∧ (1200 : Int) < (chartGeometry [1200]).yHigh :=
  chart_bounds_strict [1200] (by decide) (by decide) 1200 (by decide)

/-! ### Claim C8 -/

/-- Claim C8: for every category whose extracted series is empty, rendering
still produces an output at the conventional per-category path, namely the
placeholder card carrying the recognizable "No data available" marker. -/
theorem empty_series_renders_no_data_card (time_class : String) :
    render_timeclass_svg time_class [] (outputFile time_class)
      = RenderResult.noData (outputFile time_class) "No data available" := rfl
